import Mathlib

set_option linter.unusedVariables false

/-!
# Verification of the MinecraftLevelExporter converters

A shallow embedding of the two converter programs of
NovelCraft/MinecraftLevelExporter (both named `converter.go`; one consumes a
dense 3-level nested array of block ids — the "dense pipeline" — and one
consumes a paletted structure file — the "structure pipeline"), together with
theorems settling the specification's claims about them.

Conventions of the embedding:
* Go slices become `List`s; a Go loop that can panic (index out of range,
  out-of-bounds slicing) becomes an `Option`-valued function where `none`
  models the panic.
* Go `int` values that are provably non-negative in every reachable state
  (lengths, loop counters, section coordinates) become `Nat`; block ids and
  palette indices, which may be negative, stay `Int`.
* Logging calls are ignored: they do not affect the computed value.
-/

/-- `mapOrPanic f l` models a Go `for` loop that computes `f` on each element
of `l` in order, collecting the results, and panics (modelled by `none`) at
the first element on which `f` fails. -/
def mapOrPanic (f : α → Option β) : List α → Option (List β)
  | [] => some []
  | x :: xs => do
    let y ← f x
    let ys ← mapOrPanic f xs
    pure (y :: ys)

/-- The list produced by a Go loop `for x := 0; x < n; x++` that appends the
elements of `f x` to an accumulator slice. -/
def flatGrid (n : Nat) (f : Nat → List α) : List α :=
  (List.range n).flatMap f

/-- The list produced by three nested Go `append` loops over
`x < a`, `y < b`, `z < c` (in that nesting order). -/
def grid3 (a b c : Nat) (f : Nat → Nat → Nat → α) : List α :=
  flatGrid a (fun x => flatGrid b (fun y => (List.range c).map (fun z => f x y z)))

/-- Checked double indexing `v[i][j]` into a nested slice. -/
def get2? (v : List (List (List Int))) (i j : Nat) : Option (List Int) :=
  v[i]?.bind (fun r => r[j]?)

/-- Checked triple indexing `v[i][j][k]` into a nested slice. -/
def get3? (v : List (List (List Int))) (i j k : Nat) : Option Int :=
  v[i]?.bind (fun r => r[j]?.bind (fun zs => zs[k]?))

namespace Dense

/-- `Section` of the dense pipeline's `converter.go`: origin coordinates and a
nested 16x16x16 block array. The Go fields are `int`; the coordinates are
always of the form `gridIndex * 16 ≥ 0`, so they are embedded as `Nat`. -/
structure Section where
  X : Nat
  Y : Nat
  Z : Nat
  Blocks : List (List (List Int))
deriving Repr, DecidableEq

/-- One pass of `validateArray`'s adjacent-length checking: Go's
`for i := 0; i < len(l)-1; i++ { if len(l[i]) != len(l[i+1]) { return false } }`. -/
def adjacentLengthsOK (l : List (List α)) : Bool :=
  (List.range (l.length - 1)).all (fun i =>
    decide (l[i]?.map List.length = l[i+1]?.map List.length))

/-- `validateArray` from the dense pipeline: adjacent first-level rows must
have equal length, and within each first-level row adjacent leaf arrays must
have equal length. (Note: leaf lengths are NOT compared across different
first-level rows.) -/
def validateArray (inputArray : List (List (List Int))) : Bool :=
  adjacentLengthsOK inputArray &&
    inputArray.all (fun yArray => adjacentLengthsOK yArray)

/-- `padArray` from the dense pipeline. Go reads `inputArray[0]` and
`inputArray[0][0]` to size the padded array, panicking on an empty outer or
first inner array (`none` here). The padded array is allocated with every cell
set to `paddingValue` and the input is copied into the zero-origin corner;
Go's `copy` into `paddedArray[i][j]` copies `min(zSize, len(inputArray[i][j]))`
elements, which is exactly "the input value wherever `get3?` is defined".
(The `copy` loop would itself panic if some row `inputArray[i]` were longer
than `ySize`; `validateArray` guarantees all first-level rows have equal
length before `padArray` is called, so that path is unreachable in the
program.) -/
def padArray (inputArray : List (List (List Int))) (paddingValue : Int) :
    Option (List (List (List Int))) := do
  let row0 ← inputArray.head?
  let col0 ← row0.head?
  let xSize := (inputArray.length + 15) / 16 * 16
  let ySize := (row0.length + 15) / 16 * 16
  let zSize := (col0.length + 15) / 16 * 16
  some ((List.range xSize).map (fun i =>
    (List.range ySize).map (fun j =>
      (List.range zSize).map (fun k =>
        (get3? inputArray i j k).getD paddingValue))))

/-- Go slice expression `xs[start : start+16]` (panics unless
`start + 16 ≤ len(xs)`; the slices reaching it are built by `make` with
capacity equal to length). -/
def slice16? (xs : List Int) (start : Nat) : Option (List Int) :=
  if start + 16 ≤ xs.length then some ((xs.drop start).take 16) else none

/-- The nested 16x16x16 `blocks` array built for the section at grid position
`(i, j, k)`: `blocks[l][m]` receives
`copy(blocks[l][m], inputArray[i*16+l][j*16+m][k*16:(k+1)*16])`. -/
def sectionBlocks? (inputArray : List (List (List Int))) (i j k : Nat) :
    Option (List (List (List Int))) :=
  mapOrPanic (fun l =>
    mapOrPanic (fun m =>
      (get2? inputArray (i*16+l) (j*16+m)).bind (fun row => slice16? row (k*16)))
      (List.range 16))
    (List.range 16)

/-- The position `sections[i*ySections*zSections + j*zSections + k]` at which
the dense pipeline stores the section of grid cell `(i, j, k)`. -/
def sectionIndex (ySections zSections i j k : Nat) : Nat :=
  i * ySections * zSections + j * zSections + k

/-- The value `sectionBlocks? inputArray i j k` computes when every access is
in range (proof-side description; see `sectionBlocks?_eq`). -/
def sectionBlocksVal (inputArray : List (List (List Int))) (i j k : Nat) :
    List (List (List Int)) :=
  (List.range 16).map (fun l => (List.range 16).map (fun m =>
    (((get2? inputArray (i*16+l) (j*16+m)).getD []).drop (k*16)).take 16))

/-- The dense pipeline's loop nesting order: outer `i` (x), middle `k` (z),
inner `j` (y). Each produced triple is `(i, k, j)`. -/
def loopOrder (xSections ySections zSections : Nat) : List (Nat × Nat × Nat) :=
  (List.range xSections).flatMap (fun i =>
    (List.range zSections).flatMap (fun k =>
      (List.range ySections).map (fun j => (i, k, j))))

/-- `convertToSections` from the dense pipeline: sizes the section grid from
`inputArray`, `inputArray[0]` and `inputArray[0][0]` (panicking — `none` —
when those reads are out of range), then fills a preallocated slice of
`xSections*ySections*zSections` zero-valued sections by writing the section of
grid cell `(i, j, k)` at position `sectionIndex`, iterating `i`, then `k`,
then `j`. `List.set` models the in-place slice store. -/
def convertToSections (inputArray : List (List (List Int))) :
    Option (List Section) := do
  let row0 ← inputArray.head?
  let col0 ← row0.head?
  let xSections := inputArray.length / 16
  let ySections := row0.length / 16
  let zSections := col0.length / 16
  let writes ← mapOrPanic (fun t => do
      let blocks ← sectionBlocks? inputArray t.1 t.2.2 t.2.1
      pure (sectionIndex ySections zSections t.1 t.2.2 t.2.1,
            Section.mk (t.1*16) (t.2.2*16) (t.2.1*16) blocks))
    (loopOrder xSections ySections zSections)
  some (writes.foldl (fun secs w => secs.set w.1 w.2)
    (List.replicate (xSections * ySections * zSections) (Section.mk 0 0 0 [])))

end Dense

namespace Struct

/-- `Section` of the structure pipeline's `converter.go`: origin coordinates
and a flat 4096-entry block array. -/
structure Section where
  X : Nat
  Y : Nat
  Z : Nat
  Blocks : List Int
deriving Repr, DecidableEq

/-- `Size` from the structure pipeline. The JSON schema requires each
component to be an integer ≥ 1, so the components are embedded as `Nat`. -/
structure Size where
  X : Nat
  Y : Nat
  Z : Nat
deriving Repr, DecidableEq

/-- `DefaultBlockId` constant from the structure pipeline. -/
def DefaultBlockId : Int := 0

/-- `OutOfRangeBlockId` constant from the structure pipeline. -/
def OutOfRangeBlockId : Int := -1

/-- `validateInput` from the structure pipeline, on the decoded fields it
actually inspects: the declared size triple, `structure.block_indices[0]`
(`blocks`) and `structure.palette.default.block_palette` (`blockPalette`,
of which only the length is used). The expected block-type count is computed
by a running maximum that STARTS AT 0 (`expectedBlockTypeCount := 0` then
`if num > expectedBlockTypeCount`), so negative indices are ignored by it.
(Go computes `expectedBlockCount` via `float64` multiplication truncated back
to `int`; on the integer sizes at hand this is exact multiplication.) -/
def validateInput (sizeX sizeY sizeZ : Int) (blocks : List Int)
    (blockPalette : List String) : Bool :=
  let expectedBlockCount : Int := sizeX * sizeY * sizeZ
  if (blocks.length : Int) ≠ expectedBlockCount then false
  else
    let expectedBlockTypeCount : Int :=
      blocks.foldl (fun acc e => if e > acc then e else acc) 0 + 1
    decide ((blockPalette.length : Int) = expectedBlockTypeCount)

/-- One step of the structure pipeline's palette-resolution loop:
`blockIndiceDict[int(blockIndice)]` (a Go slice index, panicking — `none` —
when the index is negative or not below the palette length), then the
dictionary lookup `blockDict[blockName]` with fallback `defaultBlockId`
when the name is absent. -/
def resolveBlock? (blockIndiceDict : List String) (blockDict : String → Option Int)
    (defaultBlockId : Int) (blockIndice : Int) : Option Int :=
  (if 0 ≤ blockIndice then blockIndiceDict[blockIndice.toNat]? else none).bind
    (fun blockName => some ((blockDict blockName).getD defaultBlockId))

/-- The base offset `x*16*size.X*size.Y + y*16*size.X + z*16` computed by the
structure pipeline for the section at grid position `(x, y, z)`. -/
def baseOffset (size : Size) (x y z : Nat) : Nat :=
  x * 16 * size.X * size.Y + y * 16 * size.X + z * 16

/-- Modelled from the spec: the conventional row-major flattening of the
section origin `(x*16, y*16, z*16)` at the declared size,
`(x*16*sizeY + y*16)*sizeZ + z*16`, stated by the spec as the flattening the
base-offset formula would be expected to match. Used only to compare against
`baseOffset`. -/
def rowMajorBaseOffset (size : Size) (x y z : Nat) : Nat :=
  (x * 16 * size.Y + y * 16) * size.Z + z * 16

/-- Modelled from the spec: the mathematical maximum of a flat index buffer
(`max(B)` in the claim about `validateInput`), i.e. the largest element of a
non-empty list. Used only to compare against the running maximum
`validateInput` actually computes, which starts at 0. -/
def listMaxInt : List Int → Int
  | [] => 0
  | x :: xs => xs.foldl max x

/-- The 4096-entry `sectionBlocks` slice filled by the structure pipeline for
a given base `offset`: cell `i` is the out-of-range sentinel when
`i + offset ≥ len(blocks)` and `blocks[i+offset]` otherwise — the read is
guarded, so it is always in bounds. -/
def flatSectionBlocks (blocks : List Int) (offset : Nat)
    (outOfRangeBlockId : Int) : List Int :=
  (List.range 4096).map (fun i =>
    if h : blocks.length ≤ i + offset then outOfRangeBlockId
    else blocks.get ⟨i + offset, by omega⟩)

/-- `convertToSections` from the structure pipeline, on the decoded fields it
inspects: the declared size, `structure.block_indices[0]` (`rawBlocks`), the
palette name list (`blockIndiceDict`, built in input order), and the external
block dictionary (a partial map, embedded as `String → Option Int`). It first
resolves every raw index through the palette and dictionary (panicking —
`none` — on an out-of-range palette index), then appends one section per grid
cell, iterating `x`, then `y`, then `z`. -/
def convertToSections (size : Size) (rawBlocks : List Int)
    (blockIndiceDict : List String) (blockDict : String → Option Int)
    (defaultBlockId outOfRangeBlockId : Int) : Option (List Section) := do
  let blocks ← mapOrPanic (resolveBlock? blockIndiceDict blockDict defaultBlockId) rawBlocks
  let sectionCountX := (size.X + 15) / 16
  let sectionCountY := (size.Y + 15) / 16
  let sectionCountZ := (size.Z + 15) / 16
  some (grid3 sectionCountX sectionCountY sectionCountZ (fun x y z =>
    Section.mk (x*16) (y*16) (z*16)
      (flatSectionBlocks blocks (baseOffset size x y z) outOfRangeBlockId)))

/-- Modelled from the `inputJsonSchema` constant of the structure pipeline:
the constraints the JSON schema places on the fields the converter uses —
every `size` component at least 1, `block_indices[0]` non-empty, and the
palette non-empty. The schema constrains the index entries only to be
integers: it places no lower bound on them. -/
def inputSchemaOK (size : Size) (rawBlocks : List Int)
    (blockPalette : List String) : Bool :=
  decide (1 ≤ size.X) && decide (1 ≤ size.Y) && decide (1 ≤ size.Z) &&
    decide (1 ≤ rawBlocks.length) && decide (1 ≤ blockPalette.length)

end Struct

/-! ## Generic lemmas about the loop combinators -/

theorem mapOrPanic_eq_map {f : α → Option β} {g : α → β} :
    ∀ l : List α, (∀ x ∈ l, f x = some (g x)) → mapOrPanic f l = some (l.map g)
  | [], _ => rfl
  | x :: xs, h => by
    have hx : f x = some (g x) := h x (List.mem_cons_self x xs)
    have hxs := mapOrPanic_eq_map xs (fun y hy => h y (List.mem_cons_of_mem x hy))
    simp [mapOrPanic, hx, hxs]

theorem flatGrid_succ (n : Nat) (f : Nat → List α) :
    flatGrid (n + 1) f = flatGrid n f ++ f n := by
  simp [flatGrid, List.range_succ]

theorem flatGrid_length (n L : Nat) (f : Nat → List α)
    (hf : ∀ i, i < n → (f i).length = L) : (flatGrid n f).length = n * L := by
  induction n with
  | zero => simp [flatGrid]
  | succ m ih =>
    rw [flatGrid_succ, List.length_append, ih (fun i hi => hf i (Nat.lt_succ_of_lt hi)),
      hf m (Nat.lt_succ_self m)]
    ring

theorem flatGrid_getElem? (n L : Nat) (f : Nat → List α)
    (hf : ∀ i, i < n → (f i).length = L) :
    ∀ p, p < n * L → (flatGrid n f)[p]? = (f (p / L))[p % L]? := by
  induction n with
  | zero => intro p hp; omega
  | succ m ih =>
    intro p hp
    have hmul : (m + 1) * L = m * L + L := by ring
    rw [hmul] at hp
    have hlen : (flatGrid m f).length = m * L :=
      flatGrid_length m L f (fun i hi => hf i (Nat.lt_succ_of_lt hi))
    rw [flatGrid_succ, List.getElem?_append]
    by_cases hcase : p < m * L
    · rw [if_pos (by omega), ih (fun i hi => hf i (Nat.lt_succ_of_lt hi)) p hcase]
    · rw [if_neg (by omega), hlen]
      have hL : 0 < L := by omega
      have hdiv : p / L = m := by
        have h1 : p = (p - m * L) + m * L := by omega
        rw [h1, Nat.add_mul_div_right _ _ hL, Nat.div_eq_of_lt (by omega)]
        omega
      have hmod : p % L = p - m * L := by
        have h1 : p = (p - m * L) + m * L := by omega
        rw [h1, Nat.add_mul_mod_self_right, Nat.mod_eq_of_lt (by omega)]
        omega
      rw [hdiv, hmod]

theorem grid3_length (a b c : Nat) (f : Nat → Nat → Nat → α) :
    (grid3 a b c f).length = a * (b * c) := by
  refine flatGrid_length a (b * c) _ (fun x _ => ?_)
  refine flatGrid_length b c _ (fun y _ => ?_)
  simp

theorem grid3_getElem? (a b c : Nat) (f : Nat → Nat → Nat → α)
    (p : Nat) (hp : p < a * (b * c)) :
    (grid3 a b c f)[p]? = some (f (p / (b * c)) (p % (b * c) / c) (p % c)) := by
  have hbc : 0 < b * c := by
    rcases Nat.eq_zero_or_pos (b * c) with h0 | h0
    · rw [h0, Nat.mul_zero] at hp; exact absurd hp (Nat.not_lt_zero p)
    · exact h0
  have hc : 0 < c := by
    rcases Nat.eq_zero_or_pos c with h0 | h0
    · rw [h0, Nat.mul_zero] at hbc; exact absurd hbc (lt_irrefl 0)
    · exact h0
  have hinner : ∀ x, x < a → (flatGrid b (fun y => (List.range c).map (fun z => f x y z))).length = b * c := by
    intro x _
    exact flatGrid_length b c _ (fun y _ => by simp)
  have h1 : (grid3 a b c f)[p]? =
      (flatGrid b (fun y => (List.range c).map (fun z => f (p / (b * c)) y z)))[p % (b * c)]? :=
    flatGrid_getElem? a (b * c) _ hinner p hp
  have hq : p % (b * c) < b * c := Nat.mod_lt _ hbc
  have h2 : (flatGrid b (fun y => (List.range c).map (fun z => f (p / (b * c)) y z)))[p % (b * c)]? =
      ((List.range c).map (fun z => f (p / (b * c)) (p % (b * c) / c) z))[p % (b * c) % c]? :=
    flatGrid_getElem? b c _ (fun y _ => by simp) _ hq
  have h3 : p % (b * c) % c = p % c :=
    Nat.mod_mod_of_dvd p ⟨b, by ring⟩
  rw [h1, h2, h3, List.getElem?_map, List.getElem?_range (Nat.mod_lt _ hc)]
  rfl

/-! ## Generic lemmas about the write-into-preallocated-slice fold -/

theorem foldl_set_length {α : Type} :
    ∀ (ws : List (Nat × α)) (init : List α),
      (ws.foldl (fun l w => l.set w.1 w.2) init).length = init.length
  | [], _ => rfl
  | w :: rest, init => by
    rw [List.foldl_cons, foldl_set_length rest, List.length_set]

theorem foldl_set_getElem?_of_not_mem {α : Type} :
    ∀ (ws : List (Nat × α)) (init : List α) (p : Nat),
      (∀ w ∈ ws, w.1 ≠ p) →
      (ws.foldl (fun l w => l.set w.1 w.2) init)[p]? = init[p]?
  | [], _, _, _ => rfl
  | w :: rest, init, p, h => by
    rw [List.foldl_cons,
      foldl_set_getElem?_of_not_mem rest _ p (fun x hx => h x (List.mem_cons_of_mem w hx)),
      List.getElem?_set]
    rw [if_neg (h w (List.mem_cons_self w rest))]

theorem foldl_set_getElem?_of_mem {α : Type} :
    ∀ (ws : List (Nat × α)) (init : List α) (p : Nat) (v : α),
      (p, v) ∈ ws → (∀ w ∈ ws, w.1 = p → w.2 = v) → p < init.length →
      (ws.foldl (fun l w => l.set w.1 w.2) init)[p]? = some v
  | [], _, _, _, hmem, _, _ => absurd hmem (List.not_mem_nil _)
  | w :: rest, init, p, v, hmem, huniq, hp => by
    rw [List.foldl_cons]
    by_cases hrest : ∃ u ∈ rest, u.1 = p
    · obtain ⟨u, humem, hu1⟩ := hrest
      have hu2 : u.2 = v := huniq u (List.mem_cons_of_mem w humem) hu1
      have huv : (p, v) ∈ rest := by
        have : u = (p, v) := Prod.ext hu1 hu2
        rwa [this] at humem
      exact foldl_set_getElem?_of_mem rest _ p v huv
        (fun x hx => huniq x (List.mem_cons_of_mem w hx))
        (by rwa [List.length_set])
    · push_neg at hrest
      rw [foldl_set_getElem?_of_not_mem rest _ p hrest]
      rcases List.mem_cons.mp hmem with heq | hmemrest
      · rw [← heq, List.getElem?_set]
        simp [hp]
      · exact absurd rfl (hrest (p, v) hmemrest)

/-! ## Arithmetic of the row-major rank `i*(b*c) + j*c + k` -/

theorem rank_div (b c i j k : Nat) (hj : j < b) (hk : k < c) :
    (i * b * c + j * c + k) / (b * c) = i := by
  have hrw : i * b * c + j * c + k = (j * c + k) + i * (b * c) := by ring
  have hlt : j * c + k < b * c := by
    calc j * c + k < j * c + c := by omega
    _ = (j + 1) * c := by ring
    _ ≤ b * c := Nat.mul_le_mul_right c hj
  rw [hrw, Nat.add_mul_div_right _ _ (by omega : 0 < b * c),
    Nat.div_eq_of_lt hlt]
  omega

theorem rank_mod_div (b c i j k : Nat) (hj : j < b) (hk : k < c) :
    (i * b * c + j * c + k) % (b * c) / c = j := by
  have hrw : i * b * c + j * c + k = (j * c + k) + i * (b * c) := by ring
  have hlt : j * c + k < b * c := by
    calc j * c + k < j * c + c := by omega
    _ = (j + 1) * c := by ring
    _ ≤ b * c := Nat.mul_le_mul_right c hj
  rw [hrw, Nat.add_mul_mod_self_right, Nat.mod_eq_of_lt hlt]
  have hrw2 : j * c + k = k + j * c := by ring
  rw [hrw2, Nat.add_mul_div_right _ _ (by omega : 0 < c),
    Nat.div_eq_of_lt hk]
  omega

theorem rank_mod (b c i j k : Nat) (hk : k < c) :
    (i * b * c + j * c + k) % c = k := by
  have hrw : i * b * c + j * c + k = k + (i * b + j) * c := by ring
  rw [hrw, Nat.add_mul_mod_self_right, Nat.mod_eq_of_lt hk]

theorem rank_inj (b c i j k i' j' k' : Nat) (hj : j < b) (hk : k < c)
    (hj' : j' < b) (hk' : k' < c)
    (heq : i * b * c + j * c + k = i' * b * c + j' * c + k') :
    i = i' ∧ j = j' ∧ k = k' := by
  refine ⟨?_, ?_, ?_⟩
  · rw [← rank_div b c i j k hj hk, heq, rank_div b c i' j' k' hj' hk']
  · rw [← rank_mod_div b c i j k hj hk, heq, rank_mod_div b c i' j' k' hj' hk']
  · rw [← rank_mod b c i j k hk, heq, rank_mod b c i' j' k' hk']

theorem rank_surj (a b c p : Nat) (hp : p < a * (b * c)) :
    p / (b * c) < a ∧ p % (b * c) / c < b ∧ p % c < c ∧
      (p / (b * c)) * b * c + (p % (b * c) / c) * c + p % c = p := by
  have hbc : 0 < b * c := by
    rcases Nat.eq_zero_or_pos (b * c) with h0 | h0
    · rw [h0, Nat.mul_zero] at hp; exact absurd hp (Nat.not_lt_zero p)
    · exact h0
  have hc : 0 < c := by
    rcases Nat.eq_zero_or_pos c with h0 | h0
    · rw [h0, Nat.mul_zero] at hbc; exact absurd hbc (lt_irrefl 0)
    · exact h0
  have h1 : p / (b * c) < a := (Nat.div_lt_iff_lt_mul hbc).mpr hp
  have hq : p % (b * c) < b * c := Nat.mod_lt _ hbc
  have h2 : p % (b * c) / c < b := (Nat.div_lt_iff_lt_mul hc).mpr hq
  have h3 : p % c < c := Nat.mod_lt _ hc
  refine ⟨h1, h2, h3, ?_⟩
  have e1 : b * c * (p / (b * c)) + p % (b * c) = p := Nat.div_add_mod p (b * c)
  have e2 : c * (p % (b * c) / c) + p % (b * c) % c = p % (b * c) := Nat.div_add_mod _ c
  have e3 : p % (b * c) % c = p % c := Nat.mod_mod_of_dvd p ⟨b, by ring⟩
  have goal1 : (p / (b * c)) * b * c + (p % (b * c) / c) * c + p % c =
      b * c * (p / (b * c)) + (c * (p % (b * c) / c) + p % (b * c) % c) := by
    rw [e3]; ring
  rw [goal1, e2, e1]

/-! ## Lemmas about `Dense.validateArray` -/

namespace Dense

theorem adjacentLengthsOK_step {α : Type} (l : List (List α))
    (h : adjacentLengthsOK l = true) (i : Nat) (hi : i + 1 < l.length) :
    l[i]?.map List.length = l[i+1]?.map List.length := by
  have hall := List.all_eq_true.mp h i (List.mem_range.mpr (by omega))
  exact of_decide_eq_true hall

theorem adjacentLengthsOK_all_eq {α : Type} (l : List (List α))
    (h : adjacentLengthsOK l = true) :
    ∀ i, i < l.length → l[i]?.map List.length = l[0]?.map List.length := by
  intro i
  induction i with
  | zero => intro _; rfl
  | succ n ih =>
    intro hn
    rw [← adjacentLengthsOK_step l h n (by omega)]
    exact ih (by omega)

theorem adjacentLengthsOK_mem_len {α : Type} (l : List (List α))
    (h : adjacentLengthsOK l = true) :
    ∀ x ∈ l, ∀ y ∈ l, x.length = y.length := by
  intro x hx y hy
  obtain ⟨i, hil, hix⟩ := List.mem_iff_getElem.mp hx
  obtain ⟨j, hjl, hjy⟩ := List.mem_iff_getElem.mp hy
  have h1 := adjacentLengthsOK_all_eq l h i hil
  have h2 := adjacentLengthsOK_all_eq l h j hjl
  rw [List.getElem?_eq_getElem hil, hix] at h1
  rw [List.getElem?_eq_getElem hjl, hjy] at h2
  rw [← h2] at h1
  simpa using h1

theorem validateArray_rows (a : List (List (List Int)))
    (h : validateArray a = true) :
    ∀ r1 ∈ a, ∀ r2 ∈ a, r1.length = r2.length := by
  rw [validateArray, Bool.and_eq_true] at h
  exact adjacentLengthsOK_mem_len a h.1

theorem validateArray_leaves (a : List (List (List Int)))
    (h : validateArray a = true) :
    ∀ r ∈ a, ∀ c1 ∈ r, ∀ c2 ∈ r, c1.length = c2.length := by
  rw [validateArray, Bool.and_eq_true] at h
  intro r hr
  exact adjacentLengthsOK_mem_len r (List.all_eq_true.mp h.2 r hr)

/-! ## Lemmas about `Dense.sectionBlocks?` -/

theorem sectionBlocks?_inner (a : List (List (List Int))) (sx sy sz : Nat)
    (hx : a.length = 16 * sx)
    (hrow : ∀ r ∈ a, r.length = 16 * sy)
    (hleaf : ∀ r ∈ a, ∀ q ∈ r, q.length = 16 * sz)
    (i j k : Nat) (hi : i < sx) (hj : j < sy) (hk : k < sz)
    (l m : Nat) (hl : l < 16) (hm : m < 16) :
    ∃ row, get2? a (i*16+l) (j*16+m) = some row ∧ row.length = 16 * sz := by
  have hia : i*16+l < a.length := by omega
  obtain ⟨r, hr⟩ : ∃ r, a[i*16+l]? = some r := ⟨_, List.getElem?_eq_getElem hia⟩
  have hrmem : r ∈ a := List.getElem?_mem hr
  have hrlen : r.length = 16 * sy := hrow r hrmem
  have hja : j*16+m < r.length := by omega
  obtain ⟨row, hrowq⟩ : ∃ row, r[j*16+m]? = some row := ⟨_, List.getElem?_eq_getElem hja⟩
  refine ⟨row, ?_, hleaf r hrmem row (List.getElem?_mem hrowq)⟩
  unfold get2?
  rw [hr, Option.some_bind, hrowq]

theorem sectionBlocks?_eq (a : List (List (List Int))) (sx sy sz : Nat)
    (hx : a.length = 16 * sx)
    (hrow : ∀ r ∈ a, r.length = 16 * sy)
    (hleaf : ∀ r ∈ a, ∀ q ∈ r, q.length = 16 * sz)
    (i j k : Nat) (hi : i < sx) (hj : j < sy) (hk : k < sz) :
    sectionBlocks? a i j k = some (sectionBlocksVal a i j k) := by
  unfold sectionBlocks? sectionBlocksVal
  refine mapOrPanic_eq_map _ (fun l hl => ?_)
  rw [List.mem_range] at hl
  refine mapOrPanic_eq_map _ (fun m hm => ?_)
  rw [List.mem_range] at hm
  obtain ⟨row, hget, hrowlen⟩ :=
    sectionBlocks?_inner a sx sy sz hx hrow hleaf i j k hi hj hk l m hl hm
  rw [hget, Option.some_bind]
  unfold slice16?
  rw [if_pos (by omega)]
  rfl

theorem sectionBlocksVal_dims (a : List (List (List Int))) (sx sy sz : Nat)
    (hx : a.length = 16 * sx)
    (hrow : ∀ r ∈ a, r.length = 16 * sy)
    (hleaf : ∀ r ∈ a, ∀ q ∈ r, q.length = 16 * sz)
    (i j k : Nat) (hi : i < sx) (hj : j < sy) (hk : k < sz) :
    (sectionBlocksVal a i j k).length = 16 ∧
      ∀ pl ∈ sectionBlocksVal a i j k, pl.length = 16 ∧
        ∀ r ∈ pl, r.length = 16 := by
  constructor
  · simp [sectionBlocksVal]
  · intro pl hpl
    rw [sectionBlocksVal, List.mem_map] at hpl
    obtain ⟨l, hlmem, hpl⟩ := hpl
    rw [List.mem_range] at hlmem
    constructor
    · rw [← hpl]; simp
    · intro r hr
      rw [← hpl, List.mem_map] at hr
      obtain ⟨m, hmmem, hr⟩ := hr
      rw [List.mem_range] at hmmem
      obtain ⟨row, hget, hrowlen⟩ :=
        sectionBlocks?_inner a sx sy sz hx hrow hleaf i j k hi hj hk l m hlmem hmmem
      rw [← hr, hget]
      simp only [Option.getD_some, List.length_take, List.length_drop]
      omega

theorem sectionBlocksVal_cell (a : List (List (List Int))) (sx sy sz : Nat)
    (hx : a.length = 16 * sx)
    (hrow : ∀ r ∈ a, r.length = 16 * sy)
    (hleaf : ∀ r ∈ a, ∀ q ∈ r, q.length = 16 * sz)
    (i j k : Nat) (hi : i < sx) (hj : j < sy) (hk : k < sz)
    (l m n : Nat) (hl : l < 16) (hm : m < 16) (hn : n < 16) :
    get3? (sectionBlocksVal a i j k) l m n = get3? a (i*16+l) (j*16+m) (k*16+n) := by
  obtain ⟨row, hget, hrowlen⟩ :=
    sectionBlocks?_inner a sx sy sz hx hrow hleaf i j k hi hj hk l m hl hm
  have hL : (sectionBlocksVal a i j k)[l]? =
      some ((List.range 16).map (fun m =>
        (((get2? a (i*16+l) (j*16+m)).getD []).drop (k*16)).take 16)) := by
    rw [sectionBlocksVal, List.getElem?_map, List.getElem?_range hl]
    rfl
  have hM : ((List.range 16).map (fun m =>
      (((get2? a (i*16+l) (j*16+m)).getD []).drop (k*16)).take 16))[m]? =
      some ((row.drop (k*16)).take 16) := by
    rw [List.getElem?_map, List.getElem?_range hm]
    simp only [Option.map_some']
    rw [hget]
    rfl
  have hN : ((row.drop (k*16)).take 16)[n]? = row[k*16+n]? := by
    rw [List.getElem?_take, if_pos hn, List.getElem?_drop]
  have hrhs : get3? a (i*16+l) (j*16+m) (k*16+n) = row[k*16+n]? := by
    unfold get3?
    unfold get2? at hget
    rcases Option.bind_eq_some.mp hget with ⟨r, hr, hrowq⟩
    rw [hr, Option.some_bind, hrowq, Option.some_bind]
  rw [get3?, hL, Option.some_bind, hM, Option.some_bind, hN, hrhs]

end Dense

/-! ## Characterization of the dense `convertToSections` -/

namespace Dense

theorem loopOrder_mem_bounds (xS yS zS : Nat) :
    ∀ t ∈ loopOrder xS yS zS, t.1 < xS ∧ t.2.1 < zS ∧ t.2.2 < yS := by
  intro t ht
  simp only [loopOrder, List.mem_flatMap, List.mem_map, List.mem_range] at ht
  obtain ⟨i, hi, k, hk, j, hj, rfl⟩ := ht
  exact ⟨hi, hk, hj⟩

theorem mem_loopOrder_of_bounds (xS yS zS i k j : Nat)
    (hi : i < xS) (hk : k < zS) (hj : j < yS) :
    (i, k, j) ∈ loopOrder xS yS zS := by
  simp only [loopOrder, List.mem_flatMap, List.mem_map, List.mem_range]
  exact ⟨i, hi, k, hk, j, hj, rfl⟩

theorem convertToSections_char (a : List (List (List Int))) (sx sy sz : Nat)
    (hsx : 0 < sx) (hsy : 0 < sy) (hsz : 0 < sz)
    (hx : a.length = 16 * sx)
    (hrow : ∀ r ∈ a, r.length = 16 * sy)
    (hleaf : ∀ r ∈ a, ∀ q ∈ r, q.length = 16 * sz) :
    ∃ secs, convertToSections a = some secs ∧
      secs.length = sx * (sy * sz) ∧
      ∀ p, p < sx * (sy * sz) →
        secs[p]? = some (Section.mk (p / (sy * sz) * 16) (p % (sy * sz) / sz * 16)
          (p % sz * 16)
          (sectionBlocksVal a (p / (sy * sz)) (p % (sy * sz) / sz) (p % sz))) := by
  -- expose the non-empty head structure forced by the positive extents
  rcases a with _ | ⟨r0, rest⟩
  · exfalso; simp at hx; omega
  have hr0mem : r0 ∈ r0 :: rest := List.mem_cons_self r0 rest
  have hr0len : r0.length = 16 * sy := hrow r0 hr0mem
  rcases hc : r0 with _ | ⟨c0, r0rest⟩
  · exfalso; rw [hc] at hr0len; simp at hr0len; omega
  rw [← hc]
  have hc0mem : c0 ∈ r0 := by rw [hc]; exact List.mem_cons_self c0 r0rest
  have hc0len : c0.length = 16 * sz := hleaf r0 hr0mem c0 hc0mem
  have hhead : r0.head? = some c0 := by rw [hc]; rfl
  -- the division results
  have hxs : (r0 :: rest).length / 16 = sx := by
    rw [hx]; exact Nat.mul_div_cancel_left sx (by norm_num)
  have hys : r0.length / 16 = sy := by
    rw [hr0len]; exact Nat.mul_div_cancel_left sy (by norm_num)
  have hzs : c0.length / 16 = sz := by
    rw [hc0len]; exact Nat.mul_div_cancel_left sz (by norm_num)
  -- the per-iteration value of the write-building loop
  have hmap : mapOrPanic (fun t => do
        let blocks ← sectionBlocks? (r0 :: rest) t.1 t.2.2 t.2.1
        pure (sectionIndex sy sz t.1 t.2.2 t.2.1,
              Section.mk (t.1*16) (t.2.2*16) (t.2.1*16) blocks))
      (loopOrder sx sy sz) =
      some ((loopOrder sx sy sz).map (fun t =>
        (sectionIndex sy sz t.1 t.2.2 t.2.1,
         Section.mk (t.1*16) (t.2.2*16) (t.2.1*16)
           (sectionBlocksVal (r0 :: rest) t.1 t.2.2 t.2.1)))) := by
    refine mapOrPanic_eq_map _ (fun t ht => ?_)
    obtain ⟨hti, htk, htj⟩ := loopOrder_mem_bounds sx sy sz t ht
    rw [sectionBlocks?_eq (r0 :: rest) sx sy sz hx hrow hleaf t.1 t.2.2 t.2.1 hti htj htk]
    rfl
  -- unfold the definition
  refine ⟨((loopOrder sx sy sz).map (fun t =>
      (sectionIndex sy sz t.1 t.2.2 t.2.1,
       Section.mk (t.1*16) (t.2.2*16) (t.2.1*16)
         (sectionBlocksVal (r0 :: rest) t.1 t.2.2 t.2.1)))).foldl
      (fun secs w => secs.set w.1 w.2)
      (List.replicate (sx * sy * sz) (Section.mk 0 0 0 [])), ?_, ?_, ?_⟩
  · simp only [Option.bind_eq_bind] at hmap
    simp only [convertToSections, List.head?_cons, hhead, Option.bind_eq_bind,
      Option.some_bind, hxs, hys, hzs, hmap]
  · rw [foldl_set_length, List.length_replicate]; ring
  · intro p hp
    obtain ⟨hi, hj, hk, hrank⟩ := rank_surj sx sy sz p hp
    have hrank' : sectionIndex sy sz (p / (sy * sz)) (p % (sy * sz) / sz) (p % sz) = p := by
      rw [sectionIndex]; exact hrank
    refine foldl_set_getElem?_of_mem _ _ p _ ?_ ?_ ?_
    · rw [List.mem_map]
      refine ⟨(p / (sy * sz), p % sz, p % (sy * sz) / sz),
        mem_loopOrder_of_bounds sx sy sz _ _ _ hi hk hj, ?_⟩
      simp only
      rw [hrank']
    · intro w hw hw1
      rw [List.mem_map] at hw
      obtain ⟨t, htmem, rfl⟩ := hw
      obtain ⟨hti, htk, htj⟩ := loopOrder_mem_bounds sx sy sz t htmem
      simp only at hw1 ⊢
      rw [← hrank'] at hw1
      have hinj := rank_inj sy sz t.1 t.2.2 t.2.1 (p / (sy * sz)) (p % (sy * sz) / sz)
        (p % sz) htj htk hj hk (by
          have e1 : sectionIndex sy sz t.1 t.2.2 t.2.1 =
              t.1 * sy * sz + t.2.2 * sz + t.2.1 := rfl
          have e2 : sectionIndex sy sz (p / (sy * sz)) (p % (sy * sz) / sz) (p % sz) =
              (p / (sy * sz)) * sy * sz + (p % (sy * sz) / sz) * sz + p % sz := rfl
          rw [e1, e2] at hw1
          exact hw1)
      rw [hinj.1, hinj.2.1, hinj.2.2]
    · rw [List.length_replicate]
      have : sx * sy * sz = sx * (sy * sz) := by ring
      rw [this]; exact hp

end Dense

/-! ## Lemmas about the structure pipeline -/

namespace Struct

theorem resolveBlock?_eq (blockIndiceDict : List String)
    (blockDict : String → Option Int) (defaultBlockId : Int) (v : Int)
    (hv : 0 ≤ v) (hlt : v.toNat < blockIndiceDict.length) :
    resolveBlock? blockIndiceDict blockDict defaultBlockId v =
      some (((blockIndiceDict[v.toNat]?).map
        (fun name => (blockDict name).getD defaultBlockId)).getD defaultBlockId) := by
  unfold resolveBlock?
  rw [if_pos hv]
  obtain ⟨name, hname⟩ : ∃ name, blockIndiceDict[v.toNat]? = some name :=
    ⟨_, List.getElem?_eq_getElem hlt⟩
  rw [hname, Option.some_bind]
  rfl

theorem sectionsOutput_char (size : Size) (rawBlocks : List Int)
    (blockIndiceDict : List String) (blockDict : String → Option Int)
    (defaultBlockId outOfRangeBlockId : Int)
    (hidx : ∀ v ∈ rawBlocks, 0 ≤ v ∧ v.toNat < blockIndiceDict.length) :
    ∃ blocks,
      mapOrPanic (resolveBlock? blockIndiceDict blockDict defaultBlockId) rawBlocks =
        some blocks ∧
      convertToSections size rawBlocks blockIndiceDict blockDict defaultBlockId
          outOfRangeBlockId =
        some (grid3 ((size.X + 15) / 16) ((size.Y + 15) / 16) ((size.Z + 15) / 16)
          (fun x y z => Section.mk (x*16) (y*16) (z*16)
            (flatSectionBlocks blocks (baseOffset size x y z) outOfRangeBlockId))) := by
  have hmap : mapOrPanic (resolveBlock? blockIndiceDict blockDict defaultBlockId) rawBlocks =
      some (rawBlocks.map (fun v => ((blockIndiceDict[v.toNat]?).map
        (fun name => (blockDict name).getD defaultBlockId)).getD defaultBlockId)) :=
    mapOrPanic_eq_map _ (fun v hv =>
      resolveBlock?_eq blockIndiceDict blockDict defaultBlockId v
        (hidx v hv).1 (hidx v hv).2)
  refine ⟨_, hmap, ?_⟩
  simp only [convertToSections, Option.bind_eq_bind, hmap, Option.some_bind]

theorem flatSectionBlocks_eq (blocks : List Int) (offset : Nat)
    (outOfRangeBlockId : Int) :
    flatSectionBlocks blocks offset outOfRangeBlockId =
      (List.range 4096).map (fun i => (blocks[i + offset]?).getD outOfRangeBlockId) := by
  unfold flatSectionBlocks
  refine List.map_congr_left (fun i hi => ?_)
  split
  next h => rw [List.getElem?_eq_none h]; rfl
  next h =>
    rw [List.getElem?_eq_getElem (by omega)]
    rfl

theorem foldl_runningMax (l : List Int) :
    ∀ acc : Int, l.foldl (fun acc e => if e > acc then e else acc) acc = l.foldl max acc := by
  induction l with
  | nil => intro acc; rfl
  | cons x xs ih =>
    intro acc
    rw [List.foldl_cons, List.foldl_cons, ih]
    congr 1
    rw [max_def]
    split_ifs <;> omega

end Struct

/-! ## The claims -/

/-- C10: the empty dense input `[]` passes `validateArray` (both of its loops
are vacuous), yet `padArray` then reads `inputArray[0]` out of range — the Go
program panics, modelled by `none`. The dense pipeline's validation does not
enforce the non-empty extents `padArray` needs. -/
theorem spec_C10 :
    Dense.validateArray [] = true ∧ Dense.padArray [] (-1) = none := by
  exact ⟨rfl, rfl⟩

/-- C9: a structure-pipeline input that satisfies the schema constraints on
the fields the converter uses (`inputSchemaOK`; the schema puts no lower bound
on index entries, so `-1` is schema-valid) and passes `validateInput` — whose
running maximum starts at 0 and ignores the negative index — yet whose
negative palette index makes `convertToSections`' palette lookup
`blockIndiceDict[int(blockIndice)]` index out of the palette's bounds (a Go
panic, modelled by `none`). -/
theorem spec_C9 :
    Struct.inputSchemaOK ⟨1, 1, 1⟩ [-1] ["minecraft:stone"] = true ∧
    Struct.validateInput 1 1 1 [-1] ["minecraft:stone"] = true ∧
    Struct.convertToSections ⟨1, 1, 1⟩ [-1] ["minecraft:stone"] (fun _ => none)
      Struct.DefaultBlockId Struct.OutOfRangeBlockId = none := by
  refine ⟨by decide, by decide, ?_⟩
  decide

/-- C6: the structure pipeline's base-offset formula
`x*16*sizeX*sizeY + y*16*sizeX + z*16` is not the conventional row-major
flattening `(x*16*sizeY + y*16)*sizeZ + z*16` of the section origin at the
stated size: they differ already at size `(17,1,1)`, grid position `(1,0,0)`
(272 versus 16). -/
theorem spec_C6 : ∃ (size : Struct.Size) (x y z : Nat),
    x < (size.X + 15) / 16 ∧ y < (size.Y + 15) / 16 ∧ z < (size.Z + 15) / 16 ∧
    Struct.baseOffset size x y z ≠ Struct.rowMajorBaseOffset size x y z :=
  ⟨⟨17, 1, 1⟩, 1, 0, 0, by decide, by decide, by decide, by decide⟩

/-- C3: the structure pipeline's per-section fill (`flatSectionBlocks`, the
loop body `convertToSections` runs at every section grid position) produces
exactly 4096 cells; cell `i` equals the out-of-range sentinel `-1` when
`i + offset ≥ len(blocks)` and `blocks[i+offset]` otherwise — stated as an
equality with the guarded-lookup description `(blocks[i+offset]?).getD (-1)`,
whose defined cases coincide with the in-bounds reads, so the buffer read is
never out of bounds and never wrapped. -/
theorem spec_C3 (blocks : List Int) (offset : Nat) :
    Struct.flatSectionBlocks blocks offset Struct.OutOfRangeBlockId =
      (List.range 4096).map (fun i => (blocks[i + offset]?).getD (-1)) := by
  rw [Struct.flatSectionBlocks_eq]
  rfl

/-- C4 counterexample: the claim says validation fails whenever the palette
length differs from `max(B)+1`; but `validateInput`'s running maximum starts
at 0, so for the all-negative buffer `[-1]` (with size 1x1x1 and a one-entry
palette) validation succeeds even though `max(B)+1 = 0 ≠ 1`. -/
theorem spec_C4_counterexample :
    Struct.validateInput 1 1 1 [-1] ["minecraft:stone"] = true ∧
    ((["minecraft:stone"] : List String).length : Int) ≠ Struct.listMaxInt [-1] + 1 := by
  decide

/-- C4 (amended): `validateInput` returns true exactly when the block count
equals `sizeX*sizeY*sizeZ` and the palette length equals one more than the
running maximum of the indices started at 0 (i.e. `max(0, max(B)) + 1`; for
buffers containing a non-negative entry this is the claim's `max(B)+1`). -/
theorem spec_C4 (sizeX sizeY sizeZ : Int) (blocks : List Int)
    (blockPalette : List String) :
    Struct.validateInput sizeX sizeY sizeZ blocks blockPalette = true ↔
      ((blocks.length : Int) = sizeX * sizeY * sizeZ ∧
       (blockPalette.length : Int) = blocks.foldl max 0 + 1) := by
  unfold Struct.validateInput
  rw [Struct.foldl_runningMax]
  by_cases h : (blocks.length : Int) = sizeX * sizeY * sizeZ
  · rw [if_neg (by omega)]
    rw [decide_eq_true_eq]
    constructor
    · intro h2; exact ⟨h, h2⟩
    · intro h2; exact h2.2
  · rw [if_pos (by omega)]
    constructor
    · intro h2; exact absurd h2 (by simp)
    · intro h2; exact absurd h2.1 h

/-- C5 counterexample: `validateArray` accepts `[[[1,2]],[[1,2,3]]]` although
two leaf arrays (in different first-level rows) have different lengths —
cross-row leaf lengths are never compared. -/
theorem spec_C5_counterexample :
    Dense.validateArray [[[1, 2]], [[1, 2, 3]]] = true ∧
    (∃ r1 ∈ ([[[1, 2]], [[1, 2, 3]]] : List (List (List Int))),
     ∃ r2 ∈ ([[[1, 2]], [[1, 2, 3]]] : List (List (List Int))),
     ∃ c1 ∈ r1, ∃ c2 ∈ r2, c1.length ≠ c2.length) := by
  decide

/-- C5 (amended): `validateArray` returns false for every array in which two
first-level rows have different lengths, or two leaf arrays WITHIN THE SAME
first-level row have different lengths (the adjacent-pair checks propagate
transitively); leaf arrays in different first-level rows are not compared. -/
theorem spec_C5 (a : List (List (List Int)))
    (h : (∃ r1 ∈ a, ∃ r2 ∈ a, r1.length ≠ r2.length) ∨
         (∃ r ∈ a, ∃ c1 ∈ r, ∃ c2 ∈ r, c1.length ≠ c2.length)) :
    Dense.validateArray a = false := by
  cases hval : Dense.validateArray a
  · rfl
  · exfalso
    rcases h with ⟨r1, hr1, r2, hr2, hne⟩ | ⟨r, hr, c1, hc1, c2, hc2, hne⟩
    · exact hne (Dense.validateArray_rows a hval r1 hr1 r2 hr2)
    · exact hne (Dense.validateArray_leaves a hval r hr c1 hc1 c2 hc2)

/-- Witness for C5 at the concrete ragged input `[[[1]],[]]`. -/
theorem spec_C5_witness :
    ((∃ r1 ∈ ([[[1]], []] : List (List (List Int))),
      ∃ r2 ∈ ([[[1]], []] : List (List (List Int))), r1.length ≠ r2.length) ∨
     (∃ r ∈ ([[[1]], []] : List (List (List Int))),
      ∃ c1 ∈ r, ∃ c2 ∈ r, c1.length ≠ c2.length)) ∧
    Dense.validateArray [[[1]], []] = false := by
  have h : (∃ r1 ∈ ([[[1]], []] : List (List (List Int))),
      ∃ r2 ∈ ([[[1]], []] : List (List (List Int))), r1.length ≠ r2.length) ∨
     (∃ r ∈ ([[[1]], []] : List (List (List Int))),
      ∃ c1 ∈ r, ∃ c2 ∈ r, c1.length ≠ c2.length) := by decide
  exact ⟨h, spec_C5 _ h⟩

/-- C7: palette resolution. If every raw index is a valid palette position,
the resolution loop succeeds, preserves length and order, and each output id
is the dictionary's value for the palette name at that index, or the
configured default id when the name is absent — never an error. -/
theorem spec_C7 (rawBlocks : List Int) (blockIndiceDict : List String)
    (blockDict : String → Option Int) (defaultBlockId : Int)
    (h : ∀ v ∈ rawBlocks, 0 ≤ v ∧ v.toNat < blockIndiceDict.length) :
    ∃ blocks,
      mapOrPanic (Struct.resolveBlock? blockIndiceDict blockDict defaultBlockId)
        rawBlocks = some blocks ∧
      blocks.length = rawBlocks.length ∧
      ∀ (n : Nat) (v : Int) (name : String),
        rawBlocks[n]? = some v → blockIndiceDict[v.toNat]? = some name →
        ((blockDict name = none → blocks[n]? = some defaultBlockId) ∧
         (∀ id0, blockDict name = some id0 → blocks[n]? = some id0)) := by
  have hmap : mapOrPanic (Struct.resolveBlock? blockIndiceDict blockDict defaultBlockId)
      rawBlocks = some (rawBlocks.map (fun v => ((blockIndiceDict[v.toNat]?).map
        (fun name => (blockDict name).getD defaultBlockId)).getD defaultBlockId)) :=
    mapOrPanic_eq_map rawBlocks (fun v hv =>
      Struct.resolveBlock?_eq blockIndiceDict blockDict defaultBlockId v
        (h v hv).1 (h v hv).2)
  refine ⟨_, hmap, by simp, ?_⟩
  intro n v name hv hname
  have hn : (rawBlocks.map (fun v => ((blockIndiceDict[v.toNat]?).map
      (fun name => (blockDict name).getD defaultBlockId)).getD defaultBlockId))[n]? =
      some (((blockIndiceDict[v.toNat]?).map
        (fun name => (blockDict name).getD defaultBlockId)).getD defaultBlockId) := by
    rw [List.getElem?_map, hv]
    rfl
  rw [hname] at hn
  constructor
  · intro hnone
    rw [hn]
    simp [hnone]
  · intro id0 hid0
    rw [hn]
    simp [hid0]

/-- Witness for C7 at a two-entry buffer whose first name is in the
dictionary and whose second is not. -/
theorem spec_C7_witness :
    (∀ v ∈ ([0, 1] : List Int), 0 ≤ v ∧
      v.toNat < (["minecraft:stone", "minecraft:unknown"] : List String).length) ∧
    (∃ blocks,
      mapOrPanic (Struct.resolveBlock? ["minecraft:stone", "minecraft:unknown"]
        (fun s => if s = "minecraft:stone" then some 7 else none) 0) [0, 1] =
          some blocks ∧
      blocks.length = ([0, 1] : List Int).length ∧
      ∀ (n : Nat) (v : Int) (name : String), ([0, 1] : List Int)[n]? = some v →
        (["minecraft:stone", "minecraft:unknown"] : List String)[v.toNat]? = some name →
        (((if name = "minecraft:stone" then some (7 : Int) else none) = none →
            blocks[n]? = some 0) ∧
         (∀ (id0 : Int), (if name = "minecraft:stone" then some 7 else none) =
            some id0 → blocks[n]? = some id0))) := by
  have h : ∀ v ∈ ([0, 1] : List Int), 0 ≤ v ∧
      v.toNat < (["minecraft:stone", "minecraft:unknown"] : List String).length := by
    decide
  exact ⟨h, spec_C7 [0, 1] ["minecraft:stone", "minecraft:unknown"]
    (fun s => if s = "minecraft:stone" then some 7 else none) 0 h⟩

/-- C1 counterexample: the empty volume has all three extents equal to 0,
multiples of 16, and is vacuously rectangular; the claim then asks for an
empty sections list, but the dense `convertToSections` reads `inputArray[0]`
before its loops and panics (modelled by `none`) — it returns nothing. -/
theorem spec_C1_counterexample :
    Dense.convertToSections ([] : List (List (List Int))) = none := by
  rfl

/-! ## C2: padArray -/

theorem get3?_rect (v : List (List (List Int))) (ny nz : Nat)
    (hrow : ∀ r ∈ v, r.length = ny)
    (hleaf : ∀ r ∈ v, ∀ q ∈ r, q.length = nz)
    (i j k : Nat) :
    (i < v.length ∧ j < ny ∧ k < nz → ∃ x, get3? v i j k = some x) ∧
    (¬(i < v.length ∧ j < ny ∧ k < nz) → get3? v i j k = none) := by
  constructor
  · rintro ⟨hi, hj, hk⟩
    obtain ⟨r, hr⟩ : ∃ r, v[i]? = some r := ⟨_, List.getElem?_eq_getElem hi⟩
    have hrlen := hrow r (List.getElem?_mem hr)
    obtain ⟨q, hq⟩ : ∃ q, r[j]? = some q := ⟨_, List.getElem?_eq_getElem (by omega)⟩
    have hqlen := hleaf r (List.getElem?_mem hr) q (List.getElem?_mem hq)
    obtain ⟨x, hx2⟩ : ∃ x, q[k]? = some x := ⟨_, List.getElem?_eq_getElem (by omega)⟩
    refine ⟨x, ?_⟩
    simp only [get3?, hr, Option.some_bind, hq, hx2]
  · intro hneg
    by_cases hi : i < v.length
    · obtain ⟨r, hr⟩ : ∃ r, v[i]? = some r := ⟨_, List.getElem?_eq_getElem hi⟩
      have hrlen := hrow r (List.getElem?_mem hr)
      by_cases hj : j < ny
      · obtain ⟨q, hq⟩ : ∃ q, r[j]? = some q := ⟨_, List.getElem?_eq_getElem (by omega)⟩
        have hqlen := hleaf r (List.getElem?_mem hr) q (List.getElem?_mem hq)
        have hk : ¬ k < nz := by tauto
        simp only [get3?, hr, Option.some_bind, hq,
          List.getElem?_eq_none (show q.length ≤ k by omega)]
      · simp only [get3?, hr, Option.some_bind,
          List.getElem?_eq_none (show r.length ≤ j by omega), Option.none_bind]
    · simp only [get3?, List.getElem?_eq_none (show v.length ≤ i by omega), Option.none_bind]

theorem padArray_char (v : List (List (List Int))) (ny nz : Nat)
    (hx : 0 < v.length) (hny : 0 < ny) (hnz : 0 < nz)
    (hrow : ∀ r ∈ v, r.length = ny)
    (hleaf : ∀ r ∈ v, ∀ q ∈ r, q.length = nz) :
    Dense.padArray v (-1) =
      some ((List.range ((v.length + 15) / 16 * 16)).map (fun i =>
        (List.range ((ny + 15) / 16 * 16)).map (fun j =>
          (List.range ((nz + 15) / 16 * 16)).map (fun k =>
            (get3? v i j k).getD (-1))))) := by
  rcases v with _ | ⟨r0, rest⟩
  · simp at hx
  have hr0len : r0.length = ny := hrow r0 (List.mem_cons_self r0 rest)
  rcases hc : r0 with _ | ⟨c0, r0rest⟩
  · rw [hc] at hr0len; simp at hr0len; omega
  rw [← hc]
  have hhead : r0.head? = some c0 := by rw [hc]; rfl
  have hc0len : c0.length = nz :=
    hleaf r0 (List.mem_cons_self r0 rest) c0 (by rw [hc]; exact List.mem_cons_self c0 r0rest)
  simp only [Dense.padArray, List.head?_cons, hhead, Option.bind_eq_bind,
    Option.some_bind, hr0len, hc0len]

/-- C2: for every non-empty rectangular dense volume (row length `ny ≥ 1`,
leaf length `nz ≥ 1`), `padArray (·, -1)` succeeds, its three extents are
`ceil(size/16)*16` per axis — multiples of 16 in `[size, size+16)` — the
prefix subvolume reproduces the input exactly, and every other cell is the
sentinel `-1`. -/
theorem spec_C2 (v : List (List (List Int))) (ny nz : Nat)
    (hx : 0 < v.length) (hny : 0 < ny) (hnz : 0 < nz)
    (hrow : ∀ r ∈ v, r.length = ny)
    (hleaf : ∀ r ∈ v, ∀ q ∈ r, q.length = nz) :
    ∃ P, Dense.padArray v (-1) = some P ∧
      P.length = (v.length + 15) / 16 * 16 ∧
      16 ∣ P.length ∧ v.length ≤ P.length ∧ P.length < v.length + 16 ∧
      (∀ r ∈ P, r.length = (ny + 15) / 16 * 16 ∧
        ∀ q ∈ r, q.length = (nz + 15) / 16 * 16) ∧
      16 ∣ (ny + 15) / 16 * 16 ∧ ny ≤ (ny + 15) / 16 * 16 ∧
        (ny + 15) / 16 * 16 < ny + 16 ∧
      16 ∣ (nz + 15) / 16 * 16 ∧ nz ≤ (nz + 15) / 16 * 16 ∧
        (nz + 15) / 16 * 16 < nz + 16 ∧
      (∀ i j k, i < (v.length + 15) / 16 * 16 → j < (ny + 15) / 16 * 16 →
          k < (nz + 15) / 16 * 16 →
        (i < v.length ∧ j < ny ∧ k < nz → get3? P i j k = get3? v i j k) ∧
        (¬(i < v.length ∧ j < ny ∧ k < nz) → get3? P i j k = some (-1))) := by
  have hchar := padArray_char v ny nz hx hny hnz hrow hleaf
  refine ⟨_, hchar, by simp, ?_, ?_, ?_, ?_, ?_, ?_, ?_, ?_, ?_, ?_, ?_⟩
  · simp only [List.length_map, List.length_range]
    exact dvd_mul_left 16 _
  · simp only [List.length_map, List.length_range]; omega
  · simp only [List.length_map, List.length_range]; omega
  · intro r hr
    rw [List.mem_map] at hr
    obtain ⟨i, himem, hr⟩ := hr
    constructor
    · rw [← hr]; simp
    · intro q hq
      rw [← hr, List.mem_map] at hq
      obtain ⟨j, hjmem, hq⟩ := hq
      rw [← hq]; simp
  · exact dvd_mul_left 16 _
  · omega
  · omega
  · exact dvd_mul_left 16 _
  · omega
  · omega
  · intro i j k hi hj hk
    have hPget : get3? ((List.range ((v.length + 15) / 16 * 16)).map (fun i =>
        (List.range ((ny + 15) / 16 * 16)).map (fun j =>
          (List.range ((nz + 15) / 16 * 16)).map (fun k =>
            (get3? v i j k).getD (-1))))) i j k =
        some ((get3? v i j k).getD (-1)) := by
      simp only [get3?]
      rw [List.getElem?_map, List.getElem?_range hi]
      simp only [Option.map_some', Option.some_bind]
      rw [List.getElem?_map, List.getElem?_range hj]
      simp only [Option.map_some', Option.some_bind]
      rw [List.getElem?_map, List.getElem?_range hk]
      simp only [Option.map_some']
    constructor
    · intro hin
      obtain ⟨x, hx2⟩ := (get3?_rect v ny nz hrow hleaf i j k).1 hin
      rw [hPget, hx2]
      rfl
    · intro hneg
      rw [hPget, (get3?_rect v ny nz hrow hleaf i j k).2 hneg]
      rfl

/-- Witness for C2 at the concrete 1x1x1 volume `[[[5]]]`, padded to 16x16x16. -/
theorem spec_C2_witness :
    (0 < ([[[5]]] : List (List (List Int))).length ∧ 0 < 1 ∧ 0 < 1 ∧
     (∀ r ∈ ([[[5]]] : List (List (List Int))), r.length = 1) ∧
     (∀ r ∈ ([[[5]]] : List (List (List Int))), ∀ q ∈ r, q.length = 1)) ∧
    (∃ P, Dense.padArray [[[5]]] (-1) = some P ∧
      P.length = (([[[5]]] : List (List (List Int))).length + 15) / 16 * 16 ∧
      16 ∣ P.length ∧ ([[[5]]] : List (List (List Int))).length ≤ P.length ∧
        P.length < ([[[5]]] : List (List (List Int))).length + 16 ∧
      (∀ r ∈ P, r.length = (1 + 15) / 16 * 16 ∧
        ∀ q ∈ r, q.length = (1 + 15) / 16 * 16) ∧
      16 ∣ (1 + 15) / 16 * 16 ∧ 1 ≤ (1 + 15) / 16 * 16 ∧ (1 + 15) / 16 * 16 < 1 + 16 ∧
      16 ∣ (1 + 15) / 16 * 16 ∧ 1 ≤ (1 + 15) / 16 * 16 ∧ (1 + 15) / 16 * 16 < 1 + 16 ∧
      (∀ i j k, i < (([[[5]]] : List (List (List Int))).length + 15) / 16 * 16 →
          j < (1 + 15) / 16 * 16 → k < (1 + 15) / 16 * 16 →
        (i < ([[[5]]] : List (List (List Int))).length ∧ j < 1 ∧ k < 1 →
          get3? P i j k = get3? [[[5]]] i j k) ∧
        (¬(i < ([[[5]]] : List (List (List Int))).length ∧ j < 1 ∧ k < 1) →
          get3? P i j k = some (-1)))) := by
  have h1 : 0 < ([[[5]]] : List (List (List Int))).length := by decide
  have h4 : ∀ r ∈ ([[[5]]] : List (List (List Int))), r.length = 1 := by decide
  have h5 : ∀ r ∈ ([[[5]]] : List (List (List Int))), ∀ q ∈ r, q.length = 1 := by decide
  exact ⟨⟨h1, by decide, by decide, h4, h5⟩,
    spec_C2 [[[5]]] 1 1 h1 (by decide) (by decide) h4 h5⟩

/-! ## C1: the dense sectionizer -/

theorem rank_lt (a b c i j k : Nat) (hi : i < a) (hj : j < b) (hk : k < c) :
    i * b * c + j * c + k < a * (b * c) := by
  have h1 : j * c + k < b * c := by
    calc j * c + k < j * c + c := by omega
    _ = (j + 1) * c := by ring
    _ ≤ b * c := Nat.mul_le_mul_right c hj
  calc i * b * c + j * c + k = i * (b * c) + (j * c + k) := by ring
  _ < i * (b * c) + b * c := by omega
  _ = (i + 1) * (b * c) := by ring
  _ ≤ a * (b * c) := Nat.mul_le_mul_right _ hi

/-- C1 (amended to volumes with positive extents; the code panics on an empty
volume, see the counterexample): on a rectangular volume with extents
`16*sx, 16*sy, 16*sz` (all positive), the dense `convertToSections` returns
exactly `sx*sy*sz` sections, each a 16x16x16 nested block array; the cell of
absolute coordinate `(x,y,z)` sits in the section with origin
`(16*(x/16), 16*(y/16), 16*(z/16))` at local position `(x%16, y%16, z%16)`
with the input's value, and that section is the only one whose cube contains
`(x,y,z)` — no gaps, no overlaps. -/
theorem spec_C1 (a : List (List (List Int))) (sx sy sz : Nat)
    (hsx : 0 < sx) (hsy : 0 < sy) (hsz : 0 < sz)
    (hx : a.length = 16 * sx)
    (hrow : ∀ r ∈ a, r.length = 16 * sy)
    (hleaf : ∀ r ∈ a, ∀ q ∈ r, q.length = 16 * sz) :
    ∃ secs, Dense.convertToSections a = some secs ∧
      secs.length = sx * sy * sz ∧
      (∀ s ∈ secs, s.Blocks.length = 16 ∧
        ∀ pl ∈ s.Blocks, pl.length = 16 ∧ ∀ r ∈ pl, r.length = 16) ∧
      (∀ x y z, x < 16 * sx → y < 16 * sy → z < 16 * sz →
        ∃ p s, p < secs.length ∧ secs[p]? = some s ∧
          s.X = 16 * (x / 16) ∧ s.Y = 16 * (y / 16) ∧ s.Z = 16 * (z / 16) ∧
          get3? s.Blocks (x % 16) (y % 16) (z % 16) = get3? a x y z ∧
          (∀ q s2, q < secs.length → secs[q]? = some s2 →
            s2.X ≤ x → x < s2.X + 16 → s2.Y ≤ y → y < s2.Y + 16 →
            s2.Z ≤ z → z < s2.Z + 16 → q = p)) := by
  obtain ⟨secs, hconv, hlen, hchar⟩ :=
    Dense.convertToSections_char a sx sy sz hsx hsy hsz hx hrow hleaf
  have hlen3 : secs.length = sx * sy * sz := by rw [hlen]; ring
  refine ⟨secs, hconv, hlen3, ?_, ?_⟩
  · intro s hs
    obtain ⟨p, hp, hps⟩ := List.mem_iff_getElem.mp hs
    have hp2 : p < sx * (sy * sz) := by omega
    have hsec := hchar p hp2
    rw [List.getElem?_eq_getElem hp, hps] at hsec
    obtain ⟨hip, hjp, hkp, _⟩ := rank_surj sx sy sz p hp2
    have hs2 : s = Dense.Section.mk (p / (sy * sz) * 16) (p % (sy * sz) / sz * 16)
        (p % sz * 16)
        (Dense.sectionBlocksVal a (p / (sy * sz)) (p % (sy * sz) / sz) (p % sz)) :=
      Option.some.inj hsec
    rw [hs2]
    exact Dense.sectionBlocksVal_dims a sx sy sz hx hrow hleaf _ _ _ hip hjp hkp
  · intro x y z hx2 hy2 hz2
    have hi : x / 16 < sx := by omega
    have hj : y / 16 < sy := by omega
    have hk : z / 16 < sz := by omega
    have hp : (x / 16) * sy * sz + (y / 16) * sz + z / 16 < sx * (sy * sz) :=
      rank_lt sx sy sz _ _ _ hi hj hk
    have hsec := hchar _ hp
    rw [rank_div sy sz _ _ _ hj hk, rank_mod_div sy sz _ _ _ hj hk,
      rank_mod sy sz _ _ _ hk] at hsec
    refine ⟨(x / 16) * sy * sz + (y / 16) * sz + z / 16,
      Dense.Section.mk (x / 16 * 16) (y / 16 * 16) (z / 16 * 16)
        (Dense.sectionBlocksVal a (x / 16) (y / 16) (z / 16)),
      by omega, hsec,
      (by show x / 16 * 16 = 16 * (x / 16); omega),
      (by show y / 16 * 16 = 16 * (y / 16); omega),
      (by show z / 16 * 16 = 16 * (z / 16); omega), ?_, ?_⟩
    · have hcell := Dense.sectionBlocksVal_cell a sx sy sz hx hrow hleaf
        (x / 16) (y / 16) (z / 16) hi hj hk (x % 16) (y % 16) (z % 16)
        (by omega) (by omega) (by omega)
      rw [hcell]
      have ex : x / 16 * 16 + x % 16 = x := by omega
      have ey : y / 16 * 16 + y % 16 = y := by omega
      have ez : z / 16 * 16 + z % 16 = z := by omega
      rw [ex, ey, ez]
    · intro q s2 hq hq2 hX1 hX2 hY1 hY2 hZ1 hZ2
      have hq3 : q < sx * (sy * sz) := by omega
      have hsecq := hchar q hq3
      rw [hq2] at hsecq
      have hs2 : s2 = Dense.Section.mk (q / (sy * sz) * 16) (q % (sy * sz) / sz * 16)
          (q % sz * 16)
          (Dense.sectionBlocksVal a (q / (sy * sz)) (q % (sy * sz) / sz) (q % sz)) :=
        Option.some.inj hsecq
      obtain ⟨hiq, hjq, hkq, hrankq⟩ := rank_surj sx sy sz q hq3
      have hXq : s2.X = q / (sy * sz) * 16 := by rw [hs2]
      have hYq : s2.Y = q % (sy * sz) / sz * 16 := by rw [hs2]
      have hZq : s2.Z = q % sz * 16 := by rw [hs2]
      have e1 : q / (sy * sz) = x / 16 := by omega
      have e2 : q % (sy * sz) / sz = y / 16 := by omega
      have e3 : q % sz = z / 16 := by omega
      rw [← hrankq, e1, e2, e3]

/-- Witness for C1 at a concrete 16x16x16 volume of zeros. -/
theorem spec_C1_witness :
    (0 < 1 ∧
     (List.replicate 16 (List.replicate 16 (List.replicate 16 (0:Int)))).length = 16 * 1 ∧
     (∀ r ∈ List.replicate 16 (List.replicate 16 (List.replicate 16 (0:Int))),
        r.length = 16 * 1) ∧
     (∀ r ∈ List.replicate 16 (List.replicate 16 (List.replicate 16 (0:Int))),
        ∀ q ∈ r, q.length = 16 * 1)) ∧
    (∃ secs, Dense.convertToSections
        (List.replicate 16 (List.replicate 16 (List.replicate 16 (0:Int)))) = some secs ∧
      secs.length = 1 * 1 * 1 ∧
      (∀ s ∈ secs, s.Blocks.length = 16 ∧
        ∀ pl ∈ s.Blocks, pl.length = 16 ∧ ∀ r ∈ pl, r.length = 16) ∧
      (∀ x y z, x < 16 * 1 → y < 16 * 1 → z < 16 * 1 →
        ∃ p s, p < secs.length ∧ secs[p]? = some s ∧
          s.X = 16 * (x / 16) ∧ s.Y = 16 * (y / 16) ∧ s.Z = 16 * (z / 16) ∧
          get3? s.Blocks (x % 16) (y % 16) (z % 16) =
            get3? (List.replicate 16 (List.replicate 16 (List.replicate 16 (0:Int)))) x y z ∧
          (∀ q s2, q < secs.length → secs[q]? = some s2 →
            s2.X ≤ x → x < s2.X + 16 → s2.Y ≤ y → y < s2.Y + 16 →
            s2.Z ≤ z → z < s2.Z + 16 → q = p))) := by
  have h1 : (List.replicate 16 (List.replicate 16 (List.replicate 16 (0:Int)))).length =
      16 * 1 := by decide
  have h2 : ∀ r ∈ List.replicate 16 (List.replicate 16 (List.replicate 16 (0:Int))),
      r.length = 16 * 1 := by decide
  have h3 : ∀ r ∈ List.replicate 16 (List.replicate 16 (List.replicate 16 (0:Int))),
      ∀ q ∈ r, q.length = 16 * 1 := by decide
  exact ⟨⟨Nat.one_pos, h1, h2, h3⟩,
    spec_C1 _ 1 1 1 Nat.one_pos Nat.one_pos Nat.one_pos h1 h2 h3⟩

/-- C8: in both pipelines the sections list is ordered row-major over the
section grid — position `p` holds the section of grid cell
`(p/(ySections*zSections), p%(ySections*zSections)/zSections, p%zSections)`
(for the dense pipeline this holds of the output array despite the loops
iterating z before y, because of the index arithmetic) — with exactly one
section per grid cell, origins equal to `grid_index*16` per axis, and no two
sections sharing an origin. -/
theorem spec_C8
    (a : List (List (List Int))) (sx sy sz : Nat)
    (hsx : 0 < sx) (hsy : 0 < sy) (hsz : 0 < sz)
    (hx : a.length = 16 * sx)
    (hrow : ∀ r ∈ a, r.length = 16 * sy)
    (hleaf : ∀ r ∈ a, ∀ q ∈ r, q.length = 16 * sz)
    (size : Struct.Size) (rawBlocks : List Int) (blockIndiceDict : List String)
    (blockDict : String → Option Int) (defaultBlockId outOfRangeBlockId : Int)
    (hidx : ∀ v ∈ rawBlocks, 0 ≤ v ∧ v.toNat < blockIndiceDict.length) :
    (∃ secs, Dense.convertToSections a = some secs ∧
      secs.length = sx * sy * sz ∧
      (∀ p, p < secs.length → (secs[p]?).map (fun s => (s.X, s.Y, s.Z)) =
        some (p / (sy * sz) * 16, p % (sy * sz) / sz * 16, p % sz * 16)) ∧
      (∀ p q, p < secs.length → q < secs.length →
        (secs[p]?).map (fun s => (s.X, s.Y, s.Z)) =
          (secs[q]?).map (fun s => (s.X, s.Y, s.Z)) → p = q)) ∧
    (∃ secs, Struct.convertToSections size rawBlocks blockIndiceDict blockDict
        defaultBlockId outOfRangeBlockId = some secs ∧
      secs.length =
        ((size.X + 15) / 16) * ((size.Y + 15) / 16) * ((size.Z + 15) / 16) ∧
      (∀ p, p < secs.length → (secs[p]?).map (fun s => (s.X, s.Y, s.Z)) =
        some (p / (((size.Y + 15) / 16) * ((size.Z + 15) / 16)) * 16,
          p % (((size.Y + 15) / 16) * ((size.Z + 15) / 16)) / ((size.Z + 15) / 16) * 16,
          p % ((size.Z + 15) / 16) * 16)) ∧
      (∀ p q, p < secs.length → q < secs.length →
        (secs[p]?).map (fun s => (s.X, s.Y, s.Z)) =
          (secs[q]?).map (fun s => (s.X, s.Y, s.Z)) → p = q)) := by
  constructor
  · obtain ⟨secs, hconv, hlen, hchar⟩ :=
      Dense.convertToSections_char a sx sy sz hsx hsy hsz hx hrow hleaf
    have hassoc : sx * sy * sz = sx * (sy * sz) := by ring
    refine ⟨secs, hconv, by omega, ?_, ?_⟩
    · intro p hp
      rw [hchar p (by omega)]
      rfl
    · intro p q hp hq heq
      rw [hchar p (by omega), hchar q (by omega)] at heq
      simp only [Option.map_some', Option.some.injEq, Prod.mk.injEq] at heq
      obtain ⟨hX, hY, hZ⟩ := heq
      obtain ⟨_, _, _, hrp⟩ := rank_surj sx sy sz p (by omega)
      obtain ⟨_, _, _, hrq⟩ := rank_surj sx sy sz q (by omega)
      have e1 : p / (sy * sz) = q / (sy * sz) := by omega
      have e2 : p % (sy * sz) / sz = q % (sy * sz) / sz := by omega
      have e3 : p % sz = q % sz := by omega
      have hsums : (p / (sy * sz)) * sy * sz + (p % (sy * sz) / sz) * sz + p % sz =
          (q / (sy * sz)) * sy * sz + (q % (sy * sz) / sz) * sz + q % sz := by
        rw [e1, e2, e3]
      omega
  · obtain ⟨blocks, hblocks, hconv2⟩ :=
      Struct.sectionsOutput_char size rawBlocks blockIndiceDict blockDict
        defaultBlockId outOfRangeBlockId hidx
    have hglen : (grid3 ((size.X + 15) / 16) ((size.Y + 15) / 16) ((size.Z + 15) / 16)
        (fun x y z => Struct.Section.mk (x*16) (y*16) (z*16)
          (Struct.flatSectionBlocks blocks (Struct.baseOffset size x y z)
            outOfRangeBlockId))).length =
        ((size.X + 15) / 16) * (((size.Y + 15) / 16) * ((size.Z + 15) / 16)) :=
      grid3_length _ _ _ _
    have hassoc : ((size.X + 15) / 16) * ((size.Y + 15) / 16) * ((size.Z + 15) / 16) =
        ((size.X + 15) / 16) * (((size.Y + 15) / 16) * ((size.Z + 15) / 16)) := by ring
    refine ⟨_, hconv2, by omega, ?_, ?_⟩
    · intro p hp
      rw [grid3_getElem? _ _ _ _ p (by omega)]
      rfl
    · intro p q hp hq heq
      rw [grid3_getElem? _ _ _ _ p (by omega), grid3_getElem? _ _ _ _ q (by omega)] at heq
      simp only [Option.map_some', Option.some.injEq, Prod.mk.injEq] at heq
      obtain ⟨hX, hY, hZ⟩ := heq
      obtain ⟨_, _, _, hrp⟩ :=
        rank_surj ((size.X + 15) / 16) ((size.Y + 15) / 16) ((size.Z + 15) / 16) p (by omega)
      obtain ⟨_, _, _, hrq⟩ :=
        rank_surj ((size.X + 15) / 16) ((size.Y + 15) / 16) ((size.Z + 15) / 16) q (by omega)
      have e1 : p / (((size.Y + 15) / 16) * ((size.Z + 15) / 16)) =
          q / (((size.Y + 15) / 16) * ((size.Z + 15) / 16)) := by omega
      have e2 : p % (((size.Y + 15) / 16) * ((size.Z + 15) / 16)) / ((size.Z + 15) / 16) =
          q % (((size.Y + 15) / 16) * ((size.Z + 15) / 16)) / ((size.Z + 15) / 16) := by omega
      have e3 : p % ((size.Z + 15) / 16) = q % ((size.Z + 15) / 16) := by omega
      have hsums : (p / (((size.Y + 15) / 16) * ((size.Z + 15) / 16))) *
            ((size.Y + 15) / 16) * ((size.Z + 15) / 16) +
          (p % (((size.Y + 15) / 16) * ((size.Z + 15) / 16)) / ((size.Z + 15) / 16)) *
            ((size.Z + 15) / 16) + p % ((size.Z + 15) / 16) =
          (q / (((size.Y + 15) / 16) * ((size.Z + 15) / 16))) *
            ((size.Y + 15) / 16) * ((size.Z + 15) / 16) +
          (q % (((size.Y + 15) / 16) * ((size.Z + 15) / 16)) / ((size.Z + 15) / 16)) *
            ((size.Z + 15) / 16) + q % ((size.Z + 15) / 16) := by
        rw [e1, e2, e3]
      omega

/-- Witness for C8: the 16x16x16 zero cube on the dense side and a 1x1x1
structure input on the structure side. -/
theorem spec_C8_witness :
    ((List.replicate 16 (List.replicate 16 (List.replicate 16 (0:Int)))).length = 16 * 1 ∧
     (∀ r ∈ List.replicate 16 (List.replicate 16 (List.replicate 16 (0:Int))),
        r.length = 16 * 1) ∧
     (∀ r ∈ List.replicate 16 (List.replicate 16 (List.replicate 16 (0:Int))),
        ∀ q ∈ r, q.length = 16 * 1) ∧
     (∀ v ∈ ([0] : List Int), 0 ≤ v ∧
        v.toNat < (["minecraft:stone"] : List String).length)) ∧
    ((∃ secs, Dense.convertToSections
         (List.replicate 16 (List.replicate 16 (List.replicate 16 (0:Int)))) = some secs ∧
       secs.length = 1 * 1 * 1 ∧
       (∀ p, p < secs.length → (secs[p]?).map (fun s => (s.X, s.Y, s.Z)) =
         some (p / (1 * 1) * 16, p % (1 * 1) / 1 * 16, p % 1 * 16)) ∧
       (∀ p q, p < secs.length → q < secs.length →
         (secs[p]?).map (fun s => (s.X, s.Y, s.Z)) =
           (secs[q]?).map (fun s => (s.X, s.Y, s.Z)) → p = q)) ∧
     (∃ secs, Struct.convertToSections ⟨1, 1, 1⟩ [0] ["minecraft:stone"]
         (fun _ => none) 0 (-1) = some secs ∧
       secs.length = ((1 + 15) / 16) * ((1 + 15) / 16) * ((1 + 15) / 16) ∧
       (∀ p, p < secs.length → (secs[p]?).map (fun s => (s.X, s.Y, s.Z)) =
         some (p / (((1 + 15) / 16) * ((1 + 15) / 16)) * 16,
           p % (((1 + 15) / 16) * ((1 + 15) / 16)) / ((1 + 15) / 16) * 16,
           p % ((1 + 15) / 16) * 16)) ∧
       (∀ p q, p < secs.length → q < secs.length →
         (secs[p]?).map (fun s => (s.X, s.Y, s.Z)) =
           (secs[q]?).map (fun s => (s.X, s.Y, s.Z)) → p = q))) := by
  have h1 : (List.replicate 16 (List.replicate 16 (List.replicate 16 (0:Int)))).length =
      16 * 1 := by decide
  have h2 : ∀ r ∈ List.replicate 16 (List.replicate 16 (List.replicate 16 (0:Int))),
      r.length = 16 * 1 := by decide
  have h3 : ∀ r ∈ List.replicate 16 (List.replicate 16 (List.replicate 16 (0:Int))),
      ∀ q ∈ r, q.length = 16 * 1 := by decide
  have h4 : ∀ v ∈ ([0] : List Int), 0 ≤ v ∧
      v.toNat < (["minecraft:stone"] : List String).length := by decide
  exact ⟨⟨h1, h2, h3, h4⟩,
    spec_C8 _ 1 1 1 Nat.one_pos Nat.one_pos Nat.one_pos h1 h2 h3
      ⟨1, 1, 1⟩ [0] ["minecraft:stone"] (fun _ => none) 0 (-1) h4⟩
